import Mathlib

/-!
Verification of the FingerBot chat-mediator core against its specification.

The TypeScript sources are shallowly embedded: numbers that are IEEE doubles
in the source are modelled as rationals, millisecond clock readings as
integers, and JavaScript strings as Lean strings.  Each definition mirrors
one function of the source; theorems settle the specification claims.
-/

namespace FingerBot

/-! ## String helpers (JavaScript string primitives used by the source) -/

/-- Whitespace characters (shared by JSON parsing and trimming). -/
def isWsChar (c : Char) : Bool :=
  c = ' ' || c = '\t' || c = '\n' || c = '\r'

/-- Model of JavaScript `String.prototype.toLowerCase` (ASCII case folding). -/
def lowerStr (s : String) : String := String.mk (s.toList.map Char.toLower)

/-- Model of JavaScript `String.prototype.trim`. -/
def trimStr (s : String) : String :=
  String.mk (((s.toList.dropWhile isWsChar).reverse.dropWhile isWsChar).reverse)

/-- Containment of one character list inside another (used by `strContains`). -/
def listContainsSub (hay needle : List Char) : Bool :=
  match hay with
  | [] => needle.isEmpty
  | _ :: t => needle.isPrefixOf hay || listContainsSub t needle

/-- Model of JavaScript `String.prototype.includes`. -/
def strContains (hay needle : String) : Bool :=
  listContainsSub hay.toList needle.toList

/-- Model of JavaScript string truncation `s.length > n ? s.substring(0, m) + suffix : s`. -/
def truncateWith (s : String) (n m : Nat) (suffix : String) : String :=
  if n < s.length then String.mk (s.toList.take m) ++ suffix else s

/-! ## Stamina controller (`src/utils/stamina-manager.ts`, inertia model) -/

/-- Configuration of `StaminaManager` (fields of `StaminaConfig`).
The non-linearity exponent `p` is restricted to naturals so that
`Math.pow(intensity, p)` stays inside the rationals. -/
structure StaminaConfig where
  maxStamina : ℚ
  replyStaminaCost : ℚ
  regenRate : ℚ
  lowStaminaThreshold : ℚ
  criticalStaminaThreshold : ℚ
  restMode : Bool
  k : ℚ
  p : ℕ
  alpha : ℚ
  beta : ℚ
  gamma : ℚ
deriving DecidableEq, Repr

/-- Mutable numeric state of `StaminaManager`. -/
structure StaminaState where
  currentStamina : ℚ
  momentum : ℚ
deriving DecidableEq, Repr

/-- Stamina level labels returned by `calculateLevel`. -/
inductive StaminaLevel
  | high
  | medium
  | low
  | critical
deriving DecidableEq, Repr

/-- `StaminaManager.calculateLevel`: percentage thresholds 70 / 50 /
`criticalStaminaThreshold`, else critical. -/
def calculateLevel (cfg : StaminaConfig) (stamina : ℚ) : StaminaLevel :=
  let percentage := stamina / cfg.maxStamina * 100
  if 70 ≤ percentage then .high
  else if 50 ≤ percentage then .medium
  else if cfg.criticalStaminaThreshold ≤ percentage then .low
  else .critical

/-- `StaminaManager.canReply`: false in rest mode, otherwise the current
stamina must cover the base cost of one message, `k * 1 ^ p`. -/
def canReply (cfg : StaminaConfig) (s : StaminaState) : Bool :=
  if cfg.restMode then false
  else decide (cfg.k * (1 : ℚ) ^ cfg.p ≤ s.currentStamina)

/-- `StaminaManager.update` (`private update(intensity, dt)`): in rest mode
only the momentum decays; otherwise the momentum is decayed and accrued,
the consumption is subtracted from the stamina, the net recovery (computed
from the stamina value the field holds at that point, i.e. after the
subtraction) is added, and the result is clamped to `[0, maxStamina]`. -/
def StaminaManager.update (cfg : StaminaConfig) (s : StaminaState)
    (intensity dt : ℚ) : StaminaState :=
  if cfg.restMode then
    { s with momentum := max 0 (s.momentum * (1 - cfg.beta * dt)) }
  else
    let m1 := s.momentum * (1 - cfg.beta * dt) + cfg.alpha * intensity * dt
    let m2 := max 0 m1
    let consume := cfg.k * intensity ^ cfg.p * dt
    let s1 := s.currentStamina - consume
    let recoveryRaw := cfg.regenRate * (1 - s1 / cfg.maxStamina)
    let recoveryPenalty := cfg.gamma * m2
    let netRecovery := (recoveryRaw - recoveryPenalty) * dt
    let s2 := s1 + netRecovery
    { currentStamina := max 0 (min s2 cfg.maxStamina), momentum := m2 }

/-- `StaminaManager.consumeStamina(messageCount)`: no-op returning `false`
in rest mode; otherwise first an elapsed-time update with intensity 0 when
more than 1 ms passed, then an update with the message count over a fixed
1-second step.  `dt` is the elapsed time in seconds since the last update. -/
def consumeStamina (cfg : StaminaConfig) (s : StaminaState)
    (messageCount : ℚ) (dt : ℚ) : Bool × StaminaState :=
  if cfg.restMode then (false, s)
  else
    let s1 := if 1 / 1000 < dt then StaminaManager.update cfg s 0 dt else s
    (true, StaminaManager.update cfg s1 messageCount 1)

/-- `StaminaManager.setStamina(value)`: clamp the requested value into
`[0, maxStamina]`. -/
def setStamina (cfg : StaminaConfig) (s : StaminaState) (value : ℚ) : StaminaState :=
  { s with currentStamina := max 0 (min cfg.maxStamina value) }

/-- The operations of `StaminaManager` that mutate the numeric state:
the background tick (`update(0, dt)`), batch consumption
(`consumeStamina`), and the admin override (`setStamina`). -/
inductive StaminaOp
  | tick (dt : ℚ)
  | consume (messageCount dt : ℚ)
  | adjust (value : ℚ)
deriving DecidableEq, Repr

/-- Dispatch of a `StaminaOp` to the corresponding source function. -/
def applyStaminaOp (cfg : StaminaConfig) (op : StaminaOp) (s : StaminaState) :
    StaminaState :=
  match op with
  | .tick dt => StaminaManager.update cfg s 0 dt
  | .consume n dt => (consumeStamina cfg s n dt).2
  | .adjust v => setStamina cfg s v

/-- The stamina invariant stated by the specification:
`current ∈ [0, S_max]` and `momentum ≥ 0`. -/
def StaminaInv (cfg : StaminaConfig) (s : StaminaState) : Prop :=
  0 ≤ s.currentStamina ∧ s.currentStamina ≤ cfg.maxStamina ∧ 0 ≤ s.momentum

instance (cfg : StaminaConfig) (s : StaminaState) : Decidable (StaminaInv cfg s) := by
  unfold StaminaInv; infer_instance

/-- Definition following the wording of claim C2: identical to
`StaminaManager.update` except that the recover term reads the stamina
value from before the consumption of this step. -/
def updateClaimC2 (cfg : StaminaConfig) (s : StaminaState)
    (intensity dt : ℚ) : StaminaState :=
  let m := max 0 (s.momentum * (1 - cfg.beta * dt) + cfg.alpha * intensity * dt)
  let consume := cfg.k * intensity ^ cfg.p * dt
  let recover := (cfg.regenRate * (1 - s.currentStamina / cfg.maxStamina) - cfg.gamma * m) * dt
  { currentStamina := max 0 (min (s.currentStamina - consume + recover) cfg.maxStamina),
    momentum := m }

/-- The default configuration of the source
(`S_max = 100`, `k = 1`, `p = 1`, `alpha = 0.5`, `beta = 0.1`,
`gamma = 0.4`, `regenRate = 0.33`). -/
def staminaCfg0 : StaminaConfig :=
  { maxStamina := 100, replyStaminaCost := 5, regenRate := 33 / 100
    lowStaminaThreshold := 30, criticalStaminaThreshold := 10, restMode := false
    k := 1, p := 1, alpha := 1 / 2, beta := 1 / 10, gamma := 2 / 5 }

/-- A fully rested stamina state. -/
def staminaFull : StaminaState := { currentStamina := 100, momentum := 0 }

/-- A depleted stamina state (level critical under `staminaCfg0`). -/
def staminaEmpty : StaminaState := { currentStamina := 0, momentum := 0 }

/-! ## Core message types (`src/core/types.ts`) -/

/-- The `type` field of a `Message`: `'text' | 'command'`. -/
inductive MessageType
  | text
  | command
deriving DecidableEq, Repr

/-- Inbound `Message` (`src/core/types.ts`); the `timestamp` is the
millisecond value of the `Date`. -/
structure Message where
  id : String
  userId : String
  userName : Option String
  groupId : Option String
  conversationId : Option String
  content : String
  timestamp : ℤ
  msgType : MessageType
deriving DecidableEq, Repr

/-- Structured task inside a `ChatResponse` (`ChatTask` in the source). -/
inductive ChatTask
  | thinking (content : String)
  | reply (content : List String)
deriving DecidableEq, Repr

/-- Tool-call record attached to a `ChatResponse`; only the fields read by
`EnhancedQQChatAgentServer.sendReply` are modelled (`name`,
`result.action`, `result.userId`). -/
structure ToolCallInfo where
  name : String
  resultAction : Option String
  resultUserId : Option ℕ
deriving DecidableEq, Repr

/-- `ChatResponse` (`src/core/types.ts`) as consumed downstream of the batch
processor.  Optional fields absent at runtime are `none`; the optional
boolean `skipReply` is modelled as `Bool` since only its truthiness is read. -/
structure ChatResponse where
  content : String
  tokensUsed : Option ℕ
  skipReply : Bool
  thinking : Option String
  replies : Option (List String)
  messageIds : Option (List String)
  tasks : Option (List ChatTask)
  toolCalls : List ToolCallInfo
deriving DecidableEq, Repr

/-! ## Per-context message queue (`src/core/message-queue-manager.ts`) -/

/-- `QueuedMessage` of `message-queue-types`; `timestamp` is in seconds,
`receivedAt` in milliseconds. -/
structure QueuedMessage where
  userId : String
  userName : Option String
  groupId : Option String
  content : String
  timestamp : ℤ
  messageId : String
  isHighPriority : Bool
  contextId : String
  receivedAt : ℤ
deriving DecidableEq, Repr

/-- Queue configuration (`QueueConfig`). -/
structure QueueConfig where
  botName : String
  silenceSeconds : ℚ
  maxQueueSize : ℕ
  maxQueueAgeSeconds : ℚ
deriving DecidableEq, Repr

/-- `FlushReason` of `message-queue-types`. -/
inductive FlushReason
  | high_priority_trigger
  | silence_trigger
  | max_size_trigger
  | max_age_trigger
  | manual_trigger
  | stamina_insufficient
deriving DecidableEq, Repr

/-- Per-context `QueueState`; the one-shot timer handle is modelled by the
boolean `silenceTimerArmed`, and flush times are second-resolution clock
readings. -/
structure QueueState where
  messages : List QueuedMessage
  silenceTimerArmed : Bool
  isProcessing : Bool
  lastFlushTime : Option ℤ
  lastFlushReason : Option FlushReason
deriving DecidableEq, Repr

/-- Log record produced by `createMessageLog`. -/
structure QueueMessageLog where
  messageId : String
  userId : String
  userName : Option String
  groupId : Option String
  contentPreview : String
  contextId : String
deriving DecidableEq, Repr

/-- `truncateContent(content, 80)`. -/
def truncateContent (content : String) : String :=
  truncateWith content 80 80 "..."

/-- `createMessageLog`. -/
def createMessageLog (m : QueuedMessage) : QueueMessageLog :=
  { messageId := m.messageId, userId := m.userId, userName := m.userName
    groupId := m.groupId, contentPreview := truncateContent m.content
    contextId := m.contextId }

/-- `createMessageLogs`. -/
def createMessageLogs (ms : List QueuedMessage) : List QueueMessageLog :=
  ms.map createMessageLog

/-- `QueueProcessResult`; the optional `error` field is modelled by the
boolean `errorOccurred`. -/
structure QueueProcessResult where
  processed : Bool
  messageCount : ℕ
  response : Option ChatResponse
  errorOccurred : Bool
  reason : FlushReason
  messages : List QueueMessageLog
  contextId : String
deriving DecidableEq, Repr

/-- `MessageQueueManager.isHighPriorityMessage`: the trimmed, lower-cased
content contains `@botName` or contains `botName`, or the message is a
command. -/
def isHighPriorityMessage (qcfg : QueueConfig) (m : Message) : Bool :=
  let content := lowerStr (trimStr m.content)
  let botName := lowerStr qcfg.botName
  strContains content ("@" ++ botName) || strContains content botName ||
    decide (m.msgType = .command)

/-- `MessageQueueManager.getContextId`. -/
def getContextId (m : Message) : String :=
  match m.groupId with
  | some gid => "group_" ++ gid
  | none =>
    match m.conversationId with
    | some cid => "conv_" ++ cid
    | none => "private_" ++ m.userId

/-- `MessageQueueManager.convertToQueuedMessage`; `now` is the millisecond
clock reading taken for `receivedAt`. -/
def convertToQueuedMessage (qcfg : QueueConfig) (m : Message)
    (contextId : String) (now : ℤ) : QueuedMessage :=
  { userId := m.userId, userName := m.userName, groupId := m.groupId
    content := m.content, timestamp := m.timestamp / 1000
    messageId := m.id, isHighPriority := isHighPriorityMessage qcfg m
    contextId := contextId, receivedAt := now }

/-- Outcome of a single-context flush: the updated per-context state, the
returned `QueueProcessResult`, the snapshot handed to
`messageProcessor.processMessages` when one was handed over, the updated
global stamina state, and whether the `finally` block deleted the context
from the map. -/
structure FlushOutcome where
  state : QueueState
  result : QueueProcessResult
  processedBatch : Option (List QueuedMessage)
  stamina : StaminaState
  contextDeleted : Bool
deriving DecidableEq, Repr

/-- `MessageQueueManager.flushQueue` for one existing context.  The
downstream processor is a parameter `proc` (the serialized context string
built by `formatMessagesContext` is not modelled, no claim reads it);
`now` is the millisecond clock, `dtStamina` the elapsed seconds used by
`consumeStamina`.  The source checks, in order: empty queue, stamina
(`canReply`, with a destructive drain at critical level), the
`isProcessing` flag, and only then processes the snapshot. -/
def flushQueue (scfg : StaminaConfig) (ss : StaminaState)
    (proc : List QueuedMessage → Except Unit ChatResponse)
    (now : ℤ) (dtStamina : ℚ)
    (contextId : String) (q : QueueState) (reason : FlushReason) : FlushOutcome :=
  let q1 : QueueState := { q with silenceTimerArmed := false }
  if q1.messages.isEmpty then
    { state := q1
      result := { processed := false, messageCount := 0, response := none
                  errorOccurred := false, reason := reason, messages := []
                  contextId := contextId }
      processedBatch := none, stamina := ss, contextDeleted := false }
  else if ¬ canReply scfg ss then
    let level := calculateLevel scfg ss.currentStamina
    let q2 : QueueState :=
      if level = .critical then { q1 with messages := [] } else q1
    { state := q2
      result := { processed := false, messageCount := q2.messages.length
                  response := none, errorOccurred := false
                  reason := .stamina_insufficient
                  messages := createMessageLogs q2.messages
                  contextId := contextId }
      processedBatch := none, stamina := ss, contextDeleted := false }
  else if q1.isProcessing then
    { state := q1
      result := { processed := false, messageCount := q1.messages.length
                  response := none, errorOccurred := false, reason := reason
                  messages := createMessageLogs q1.messages
                  contextId := contextId }
      processedBatch := none, stamina := ss, contextDeleted := false }
  else
    let snapshot := q1.messages
    let q2 : QueueState := { q1 with isProcessing := true, messages := [] }
    match proc snapshot with
    | .ok resp =>
      let ss1 := (consumeStamina scfg ss (snapshot.length : ℚ) dtStamina).2
      let q3 : QueueState :=
        { q2 with lastFlushTime := some (now / 1000)
                  lastFlushReason := some reason, isProcessing := false }
      { state := q3
        result := { processed := true, messageCount := snapshot.length
                    response := some resp, errorOccurred := false
                    reason := reason, messages := createMessageLogs snapshot
                    contextId := contextId }
        processedBatch := some snapshot, stamina := ss1
        contextDeleted := q3.messages.isEmpty && ¬ q3.silenceTimerArmed }
    | .error _ =>
      let q3 : QueueState := { q2 with isProcessing := false }
      { state := q3
        result := { processed := false, messageCount := snapshot.length
                    response := none, errorOccurred := true, reason := reason
                    messages := createMessageLogs snapshot
                    contextId := contextId }
        processedBatch := some snapshot, stamina := ss
        contextDeleted := q3.messages.isEmpty && ¬ q3.silenceTimerArmed }

/-- `MessageQueueManager.resetSilenceTimer`: re-arm the one-shot timer
when `silenceSeconds > 0`. -/
def resetSilenceTimer (qcfg : QueueConfig) (q : QueueState) : QueueState :=
  if qcfg.silenceSeconds ≤ 0 then { q with silenceTimerArmed := false }
  else { q with silenceTimerArmed := true }

/-- Outcome of `addMessage`: the queued message that was appended, the
final per-context state, and the flush outcome when a flush was triggered
synchronously. -/
structure AddOutcome where
  queued : QueuedMessage
  state : QueueState
  flush : Option FlushOutcome
deriving DecidableEq, Repr

/-- `MessageQueueManager.addMessage`: convert, append, then either flush
immediately on high priority, or re-arm the silence timer and evaluate the
size and age triggers (`checkAndTriggerFlush`). -/
def addMessage (qcfg : QueueConfig) (scfg : StaminaConfig) (ss : StaminaState)
    (proc : List QueuedMessage → Except Unit ChatResponse)
    (now : ℤ) (dtStamina : ℚ) (q : QueueState) (m : Message) : AddOutcome :=
  let contextId := getContextId m
  let qm := convertToQueuedMessage qcfg m contextId now
  let q1 : QueueState := { q with messages := q.messages ++ [qm] }
  if qm.isHighPriority then
    let fo := flushQueue scfg ss proc now dtStamina contextId q1 .high_priority_trigger
    { queued := qm, state := fo.state, flush := some fo }
  else
    let q2 := resetSilenceTimer qcfg q1
    if qcfg.maxQueueSize ≤ q2.messages.length then
      let fo := flushQueue scfg ss proc now dtStamina contextId q2 .max_size_trigger
      { queued := qm, state := fo.state, flush := some fo }
    else
      match q2.messages.head? with
      | some oldest =>
        if qcfg.maxQueueAgeSeconds ≤ ((now - oldest.receivedAt : ℤ) : ℚ) / 1000 then
          let fo := flushQueue scfg ss proc now dtStamina contextId q2 .max_age_trigger
          { queued := qm, state := fo.state, flush := some fo }
        else
          { queued := qm, state := q2, flush := none }
      | none => { queued := qm, state := q2, flush := none }

/-! ## Task runner (`src/core/task-queue.ts`) -/

/-- Settlement state of the promise returned by `TaskQueue.enqueue`. -/
inductive FutureState
  | pending
  | resolved
  | rejected
deriving DecidableEq, Repr

/-- `InternalTask` with the settlement state of its future in place of the
`resolve`/`reject` callbacks. -/
structure InternalTask where
  id : String
  taskType : String
  attempts : ℕ
  maxAttempts : ℕ
  future : FutureState
deriving DecidableEq, Repr

/-- Mutable state of `TaskQueue`. -/
structure TaskQueueState where
  queue : List InternalTask
  isProcessing : Bool
  stopRequested : Bool
deriving DecidableEq, Repr

/-- `TaskQueue.shutdown`: sets `stopRequested` and polls until
`isProcessing` clears; the wait loop performs no other state change, so
its effect on the state observed once the in-flight task has completed is
exactly this function.  Neither the queue contents nor any task future is
touched (the remaining count is only logged). -/
def TaskQueue.shutdownEffect (s : TaskQueueState) : TaskQueueState :=
  { s with stopRequested := true }

/-- Definition following the wording of claim C4: shutdown discards every
remaining task and rejects each discarded future. -/
def shutdownClaimC4 (s : TaskQueueState) : TaskQueueState :=
  { queue := s.queue.map (fun t => { t with future := .rejected }) |>.filter (fun _ => false)
    isProcessing := s.isProcessing
    stopRequested := true }

/-- A queued task whose future is still pending. -/
def pendingTask0 : InternalTask :=
  { id := "send_message-1", taskType := "send_message", attempts := 0
    maxAttempts := 3, future := .pending }

/-! ## Credential pool (`src/ai/api-key-manager.ts`, class `ApiKeyManager`) -/

/-- Millisecond constants of `ApiKeyManager`. -/
def ERROR_WINDOW_MS : ℤ := 5 * 60 * 1000

/-- One-hour block duration in milliseconds. -/
def BLOCK_DURATION_MS : ℤ := 60 * 60 * 1000

/-- Threshold of rate-limit errors inside the sliding window. -/
def MAX_ERRORS_IN_WINDOW : ℕ := 5

/-- Per-key state (`ApiKeyStatus`). -/
structure ApiKeyStatus where
  key : String
  isBlocked : Bool
  errorCount : ℕ
  lastErrorTime : ℤ
  blockStartTime : Option ℤ
deriving DecidableEq, Repr

/-- Shape of the error values inspected by `is429Error` (`status`, `code`,
`message`). -/
structure GError where
  status : Option ℕ
  code : Option ℕ
  message : Option String
deriving DecidableEq, Repr

/-- `ApiKeyManager.is429Error`. -/
def is429Error (e : GError) : Bool :=
  decide (e.status = some 429) || decide (e.code = some 429) ||
    (match e.message with
     | some m =>
       strContains m "429" || strContains (lowerStr m) "rate limit" ||
         strContains (lowerStr m) "quota exceeded"
     | none => false)

/-- `ApiKeyManager.recordError` restricted to one key status (the source
first looks the status up by key; the cursor advance performed by
`blockApiKey` is manager-global and not part of the claim).  On a
rate-limit-like error: reset `errorCount` when more than the window has
passed since the last error, increment and stamp `lastErrorTime`, and
block when the count reaches the threshold. -/
def recordError (st : ApiKeyStatus) (e : GError) (now : ℤ) : ApiKeyStatus :=
  if is429Error e then
    let st1 := if ERROR_WINDOW_MS < now - st.lastErrorTime
               then { st with errorCount := 0 } else st
    let st2 := { st1 with errorCount := st1.errorCount + 1, lastErrorTime := now }
    if MAX_ERRORS_IN_WINDOW ≤ st2.errorCount then
      { st2 with isBlocked := true, blockStartTime := some now }
    else st2
  else st

/-- Key state as described by claim C5, which tracks the start of the
current window (`firstErrorAtInWindow`). -/
structure ClaimKeyStatus where
  errorCount : ℕ
  firstErrorAtInWindow : Option ℤ
  blockedAt : Option ℤ
deriving DecidableEq, Repr

/-- Definition following the wording of claim C5: the window is reset
exactly when 5 minutes have elapsed since the first error of the current
window; then the count is incremented, and at 5 errors the key is blocked
with `blockedAt = now`. -/
def recordErrorClaimC5 (st : ClaimKeyStatus) (now : ℤ) : ClaimKeyStatus :=
  let st1 :=
    match st.firstErrorAtInWindow with
    | some t0 =>
      if ERROR_WINDOW_MS ≤ now - t0 then
        { st with errorCount := 0, firstErrorAtInWindow := none }
      else st
    | none => st
  let st2 : ClaimKeyStatus :=
    { errorCount := st1.errorCount + 1
      firstErrorAtInWindow := some (st1.firstErrorAtInWindow.getD now)
      blockedAt := st1.blockedAt }
  if MAX_ERRORS_IN_WINDOW ≤ st2.errorCount then
    { st2 with blockedAt := some now }
  else st2

/-- `ApiKeyManager.cleanExpiredBlocks`: unblock and reset every key whose
block is older than one hour. -/
def cleanExpiredBlocks (now : ℤ) (sts : List ApiKeyStatus) : List ApiKeyStatus :=
  sts.map fun st =>
    match st.blockStartTime with
    | some t =>
      if st.isBlocked && decide (BLOCK_DURATION_MS < now - t) then
        { st with isBlocked := false, blockStartTime := none, errorCount := 0 }
      else st
    | none => st

/-- Rotation scan of `getCurrentApiKey`: starting at index `start + i`,
try `remaining` successive indices modulo the pool size and return the
first unblocked status with its index. -/
def findAvailGo (sts : List ApiKeyStatus) (start : ℕ) :
    ℕ → ℕ → Option (ℕ × ApiKeyStatus)
  | _, 0 => none
  | i, r + 1 =>
    let idx := (start + i) % sts.length
    match sts.get? idx with
    | some st =>
      if st.isBlocked then findAvailGo sts start (i + 1) r else some (idx, st)
    | none => findAvailGo sts start (i + 1) r

/-- The `for` loop of `getCurrentApiKey` over all `sts.length` indices. -/
def findAvailableFrom (sts : List ApiKeyStatus) (start : ℕ) :
    Option (ℕ × ApiKeyStatus) :=
  findAvailGo sts start 0 sts.length

/-- Fold of `getEarliestBlockedKey`: keep the first blocked key whose
`blockStartTime` is strictly smaller than the best so far. -/
def earliestBlockedAux (sts : List ApiKeyStatus) (acc : Option (String × ℤ)) :
    Option (String × ℤ) :=
  match sts with
  | [] => acc
  | st :: rest =>
    let acc' :=
      if st.isBlocked then
        match st.blockStartTime, acc with
        | some t, some (k0, t0) => if t < t0 then some (st.key, t) else some (k0, t0)
        | some t, none => some (st.key, t)
        | none, a => a
      else acc
    earliestBlockedAux rest acc'

/-- `ApiKeyManager.getEarliestBlockedKey`. -/
def getEarliestBlockedKey (sts : List ApiKeyStatus) : Option String :=
  (earliestBlockedAux sts none).map Prod.fst

/-- Manager-level state: the ordered key statuses (map iteration order is
key insertion order, which is the `apiKeys` order) and the rotation
cursor. -/
structure ApiKeyManagerState where
  statuses : List ApiKeyStatus
  currentKeyIndex : ℕ
deriving DecidableEq, Repr

/-- `ApiKeyManager.getCurrentApiKey`: clean expired blocks, scan from the
cursor for an unblocked key, otherwise fall back to the earliest blocked
key (or the first key of the pool). -/
def getCurrentApiKey (m : ApiKeyManagerState) (now : ℤ) :
    String × ApiKeyManagerState :=
  let sts := cleanExpiredBlocks now m.statuses
  match findAvailableFrom sts m.currentKeyIndex with
  | some (idx, st) => (st.key, { statuses := sts, currentKeyIndex := idx })
  | none =>
    ((getEarliestBlockedKey sts).getD (((sts.head?).map (·.key)).getD "")
     , { statuses := sts, currentKeyIndex := m.currentKeyIndex })

/-! ## JSON values and `JSON.parse` (used by `GeminiClient.parseTextResponse`) -/

/-- JSON values produced by `JSON.parse`. -/
inductive JsonValue
  | null
  | jbool (b : Bool)
  | jnum (q : ℚ)
  | jstr (s : String)
  | jarr (elems : List JsonValue)
  | jobj (fields : List (String × JsonValue))
deriving Repr

/-- Drop leading JSON whitespace. -/
def skipWs : List Char → List Char
  | [] => []
  | c :: t => if isWsChar c then skipWs t else c :: t

/-- Value of a hexadecimal digit. -/
def hexVal (c : Char) : Option ℕ :=
  if 48 ≤ c.toNat ∧ c.toNat ≤ 57 then some (c.toNat - 48)
  else if 97 ≤ c.toNat ∧ c.toNat ≤ 102 then some (c.toNat - 87)
  else if 65 ≤ c.toNat ∧ c.toNat ≤ 70 then some (c.toNat - 55)
  else none

/-- Body of a JSON string after the opening quote; returns the decoded
characters and the input following the closing quote. -/
def parseStrBody : ℕ → List Char → Option (List Char × List Char)
  | 0, _ => none
  | _ + 1, [] => none
  | fuel + 1, c :: rest =>
    if c = '"' then some ([], rest)
    else if c = '\\' then
      match rest with
      | [] => none
      | e :: rest2 =>
        let esc : Option (Char × List Char) :=
          if e = '"' then some ('"', rest2)
          else if e = '\\' then some ('\\', rest2)
          else if e = '/' then some ('/', rest2)
          else if e = 'b' then some ('\x08', rest2)
          else if e = 'f' then some ('\x0c', rest2)
          else if e = 'n' then some ('\n', rest2)
          else if e = 'r' then some ('\r', rest2)
          else if e = 't' then some ('\t', rest2)
          else if e = 'u' then
            match rest2 with
            | h1 :: h2 :: h3 :: h4 :: rest3 =>
              match hexVal h1, hexVal h2, hexVal h3, hexVal h4 with
              | some a, some b, some c2, some d =>
                some (Char.ofNat (((a * 16 + b) * 16 + c2) * 16 + d), rest3)
              | _, _, _, _ => none
            | _ => none
          else none
        match esc with
        | some (ch, r) => (parseStrBody fuel r).map fun p => (ch :: p.1, p.2)
        | none => none
    else if c.toNat < 32 then none
    else (parseStrBody fuel rest).map fun p => (c :: p.1, p.2)

/-- Split the longest leading run of decimal digits. -/
def spanDigits (cs : List Char) : List Char × List Char :=
  match cs with
  | [] => ([], [])
  | c :: t =>
    if 48 ≤ c.toNat ∧ c.toNat ≤ 57 then
      let (ds, r) := spanDigits t
      (c :: ds, r)
    else ([], cs)

/-- Numeric value of a digit run. -/
def digitsToNat (ds : List Char) : ℕ :=
  ds.foldl (fun a c => a * 10 + (c.toNat - 48)) 0

/-- Optional exponent part of a JSON number. -/
def applyExp (v : ℚ) (cs : List Char) : Option (ℚ × List Char) :=
  match cs with
  | c :: t =>
    if c = 'e' ∨ c = 'E' then
      let (eneg, t1) : Bool × List Char :=
        match t with
        | '+' :: u => (false, u)
        | '-' :: u => (true, u)
        | _ => (false, t)
      let (es, t2) := spanDigits t1
      if es.isEmpty then none
      else
        let e := digitsToNat es
        some (if eneg then v / 10 ^ e else v * 10 ^ e, t2)
    else some (v, cs)
  | [] => some (v, [])

/-- JSON number: optional sign, digits, optional fraction and exponent. -/
def parseNumber (cs : List Char) : Option (ℚ × List Char) :=
  let (neg, cs1) : Bool × List Char :=
    match cs with
    | '-' :: t => (true, t)
    | _ => (false, cs)
  let (ds, cs2) := spanDigits cs1
  if ds.isEmpty then none
  else
    let ip : ℚ := (digitsToNat ds : ℚ)
    let withFrac : Option (ℚ × List Char) :=
      match cs2 with
      | '.' :: t =>
        let (fs, r) := spanDigits t
        if fs.isEmpty then none
        else applyExp (ip + (digitsToNat fs : ℚ) / 10 ^ fs.length) r
      | _ => applyExp ip cs2
    withFrac.map fun p => (if neg then -p.1 else p.1, p.2)

mutual

/-- Recursive-descent JSON value, fuelled by the input length. -/
def parseVal : ℕ → List Char → Option (JsonValue × List Char)
  | 0, _ => none
  | fuel + 1, cs =>
    match skipWs cs with
    | [] => none
    | c :: rest =>
      if c = '"' then
        (parseStrBody (rest.length + 1) rest).map fun p =>
          (.jstr (String.mk p.1), p.2)
      else if c = '[' then
        match skipWs rest with
        | ']' :: r2 => some (.jarr [], r2)
        | cs2 => parseArrItems fuel cs2 []
      else if c = '{' then
        match skipWs rest with
        | '}' :: r2 => some (.jobj [], r2)
        | cs2 => parseObjItems fuel cs2 []
      else if ['t', 'r', 'u', 'e'].isPrefixOf (c :: rest) then
        some (.jbool true, (c :: rest).drop 4)
      else if ['f', 'a', 'l', 's', 'e'].isPrefixOf (c :: rest) then
        some (.jbool false, (c :: rest).drop 5)
      else if ['n', 'u', 'l', 'l'].isPrefixOf (c :: rest) then
        some (.null, (c :: rest).drop 4)
      else
        (parseNumber (c :: rest)).map fun p => (.jnum p.1, p.2)

/-- Comma-separated array elements up to the closing bracket. -/
def parseArrItems : ℕ → List Char → List JsonValue →
    Option (JsonValue × List Char)
  | 0, _, _ => none
  | fuel + 1, cs, acc =>
    match parseVal fuel cs with
    | some (v, r) =>
      match skipWs r with
      | ',' :: r2 => parseArrItems fuel r2 (acc ++ [v])
      | ']' :: r2 => some (.jarr (acc ++ [v]), r2)
      | _ => none
    | none => none

/-- Comma-separated object members up to the closing brace. -/
def parseObjItems : ℕ → List Char → List (String × JsonValue) →
    Option (JsonValue × List Char)
  | 0, _, _ => none
  | fuel + 1, cs, acc =>
    match skipWs cs with
    | '"' :: r =>
      match parseStrBody (r.length + 1) r with
      | some (kcs, r2) =>
        match skipWs r2 with
        | ':' :: r3 =>
          match parseVal fuel r3 with
          | some (v, r4) =>
            match skipWs r4 with
            | ',' :: r5 => parseObjItems fuel r5 (acc ++ [(String.mk kcs, v)])
            | '}' :: r5 => some (.jobj (acc ++ [(String.mk kcs, v)]), r5)
            | _ => none
          | none => none
        | _ => none
      | none => none
    | _ => none

end

/-- `JSON.parse`: a single JSON value with nothing but whitespace around it. -/
def jsonParse (s : String) : Option JsonValue :=
  let cs := s.toList
  match parseVal (cs.length + 1) cs with
  | some (v, rest) => if (skipWs rest).isEmpty then some v else none
  | none => none

/-! ## Newer LLM client (`GeminiClient` of `src/ai/gemini-client.ts`, the
variant built on the `@google/genai` SDK, referenced by claim C1) -/

/-- Result of `parseTextResponse`.  The source keeps array elements of the
`messages` field as the JSON values the model produced (the TypeScript
annotation `string[]` is not enforced at runtime), so they are modelled as
`JsonValue`. -/
structure ParsedTextResult where
  messages : Option (List JsonValue)
  thinking : Option String
  reason : Option String
deriving Repr

/-- Strip the leading code-fence marker: the regex
`/^` with three backticks and `json\n?/i` applied once. -/
def stripJsonFenceStart (s : String) : String :=
  let cs := s.toList
  if (cs.take 7).map Char.toLower = "```json".toList then
    match cs.drop 7 with
    | '\n' :: rest => String.mk rest
    | rest => String.mk rest
  else s

/-- Strip a trailing code-fence marker followed only by whitespace (the
regex of three backticks then whitespace anchored at the end). -/
def stripTrailingFence (s : String) : String :=
  let r := s.toList.reverse.dropWhile isWsChar
  if ("```".toList).isPrefixOf r then String.mk (r.drop 3).reverse else s

/-- Last-wins field lookup on a JSON object (JavaScript object semantics
for duplicate keys in `JSON.parse`). -/
def lookupField (fields : List (String × JsonValue)) (name : String) :
    Option JsonValue :=
  (fields.reverse.find? fun kv => kv.1 == name).map (·.2)

/-- JavaScript truthiness of a possibly-absent JSON value. -/
def jsTruthy : Option JsonValue → Bool
  | none => false
  | some .null => false
  | some (.jbool b) => b
  | some (.jnum q) => decide (q ≠ 0)
  | some (.jstr s) => ¬ s.isEmpty
  | some (.jarr _) => true
  | some (.jobj _) => true

/-- `GeminiClient.parseTextResponse` (newer client): trim, strip fences,
`JSON.parse`, project the `messages`/`thinking`/`reason` fields when any
of them is truthy; on parse failure (or when nothing truthy was found)
fall back to the raw trimmed text as a single message.  Property access on
a non-object parse result either yields `undefined` or throws, and both
paths reach the same fallback. -/
def parseTextResponse (text : String) : ParsedTextResult :=
  if text.isEmpty then ⟨none, none, none⟩
  else
    let cleaned := stripTrailingFence (stripJsonFenceStart (trimStr text))
    let fromJson : Option ParsedTextResult :=
      match jsonParse cleaned with
      | some (.jobj fields) =>
        let fMessages := lookupField fields "messages"
        let fThinking := lookupField fields "thinking"
        let fReason := lookupField fields "reason"
        if jsTruthy fMessages || jsTruthy fThinking || jsTruthy fReason then
          some
            { messages :=
                match fMessages with
                | some (.jarr xs) => some xs
                | some (.jstr s) => some [.jstr s]
                | _ => none
              thinking :=
                match fThinking with
                | some (.jstr s) => some s
                | _ => none
              reason :=
                match fReason with
                | some (.jstr s) => some s
                | _ => none }
        else none
      | _ => none
    match fromJson with
    | some r => r
    | none =>
      if ¬ (trimStr text).isEmpty then
        { messages := some [.jstr (trimStr text)], thinking := none, reason := none }
      else ⟨none, none, none⟩

/-- Structured task pushed by the newer `generateResponse`; reply contents
carry the raw JSON values of the parsed `messages` field. -/
inductive GenTask
  | reply (content : List JsonValue)
  | thinking (content : String)
deriving Repr

/-- The `ChatResponse` assembled by the newer `generateResponse` (fields
the claims read; `timestamp` and token estimation are omitted). -/
structure GenAiResponse where
  content : JsonValue
  thinking : String
  skipReply : Bool
  replies : Option (List JsonValue)
  tasks : List GenTask
  toolCallNames : List String
deriving Repr

/-- Response assembly of the newer `GeminiClient.generateResponse` after
the model call returned `textResponse`. -/
def assembleGenAiResponse (textResponse : String) : GenAiResponse :=
  let result := parseTextResponse textResponse
  let hasMsgs : Bool :=
    match result.messages with
    | some (_ :: _) => true
    | _ => false
  let reasonTruthy : Bool :=
    match result.reason with
    | some r => ¬ r.isEmpty
    | none => false
  let toolCallNames : List String :=
    if hasMsgs then ["reply_message"]
    else if reasonTruthy then ["no_reply"]
    else if ¬ (trimStr textResponse).isEmpty then ["reply_message"]
    else []
  let thinking0 := result.thinking.getD ""
  let thinking := if thinking0.isEmpty then "处理用户请求中..." else thinking0
  let tasks : List GenTask :=
    match result.messages with
    | some (m :: t) => [.reply (m :: t)]
    | _ =>
      if reasonTruthy then
        [.thinking ("决定不回复：" ++ result.reason.getD "")]
      else []
  { content :=
      match result.messages with
      | some (m :: _) => m
      | _ => .jstr ""
    thinking := thinking
    skipReply := (¬ hasMsgs) && reasonTruthy
    replies :=
      match result.messages with
      | some (m :: t) => some (m :: t)
      | _ => none
    tasks := tasks
    toolCallNames := toolCallNames }

/-- The newer `GeminiClient.generateResponse` as a function of the remote
model (oracle from prompt to completion text).  The second component
counts the model invocations performed: the single primary call is the
only one, since `parseTextResponse` issues no reformat request. -/
def generateResponse (model : String → String) (prompt : String) :
    GenAiResponse × ℕ :=
  (assembleGenAiResponse (model prompt), 1)

/-! ## Outbound correlator (`EnhancedQQChatAgentServer` of
`src/core/enhanced-qq-agent-server.ts`) -/

/-- Fields of a `QQMessage` read by the reply path. -/
structure QQMessage where
  message_id : ℕ
  message_type : String
  user_id : ℕ
  group_id : Option ℕ
deriving DecidableEq, Repr

/-- Target of a `send_message` task payload. -/
structure MsgTarget where
  userId : Option ℕ
  groupId : Option ℕ
  atUser : Option ℕ
deriving DecidableEq, Repr

/-- A task enqueued into the `TaskQueue` by the reply path. -/
inductive EnqueuedTask
  | sendMessage (target : MsgTarget) (message : String)
  | storeMemory (content : String)
deriving DecidableEq, Repr

/-- `QQMessageAdapter.formatReply`: cap replies at 1000 UTF-16 units by
truncating to 997 and appending an ellipsis. -/
def formatReply (content : String) : String :=
  truncateWith content 1000 997 "..."

/-- `EnhancedQQChatAgentServer.normalizeChatTasks`: prefer the structured
`tasks` array (trimming and dropping empty entries), otherwise rebuild
tasks from `thinking`, `replies` and `content`. -/
def normalizeChatTasks (r : ChatResponse) : List ChatTask :=
  match r.tasks with
  | some (t0 :: ts) =>
    (t0 :: ts).filterMap fun task =>
      match task with
      | .thinking c =>
        let trimmed := trimStr c
        if trimmed.isEmpty then none else some (.thinking trimmed)
      | .reply cs =>
        let replies := (cs.map trimStr).filter fun s => !s.isEmpty
        if replies.isEmpty then none else some (.reply replies)
  | _ =>
    let thinkingTasks : List ChatTask :=
      match r.thinking with
      | some t => if (trimStr t).isEmpty then [] else [.thinking (trimStr t)]
      | none => []
    let fallbackReplies :=
      ((r.replies.getD []) ++ (if r.content.isEmpty then [] else [r.content]))
        |>.map trimStr |>.filter fun s => !s.isEmpty
    thinkingTasks ++ (if fallbackReplies.isEmpty then [] else [.reply fallbackReplies])

/-- `EnhancedQQChatAgentServer.extractMessageIdsFromResult`: prefer the
ids on the response, then the ids of the result message logs, finally all
currently pending keys.  (The `result.messageIds` probe of the source
reads a field absent from `QueueProcessResult` and always yields
`undefined`.) -/
def extractMessageIdsFromResult (result : QueueProcessResult)
    (pendingKeys : List String) : List String :=
  match result.response.bind (·.messageIds) with
  | some ids => ids
  | none =>
    let logIds :=
      (result.messages.map (·.messageId)).filter fun id => ¬ id.isEmpty
    if ¬ result.messages.isEmpty ∧ ¬ logIds.isEmpty then logIds
    else pendingKeys

/-- `EnhancedQQChatAgentServer.getPendingRepliesForMessages`: look each id
up in the pending map, keeping the order of `ids` and dropping misses. -/
def getPendingRepliesForMessages (pending : List (String × QQMessage))
    (ids : List String) : List (String × QQMessage) :=
  ids.filterMap fun id =>
    (pending.find? fun kv => kv.1 == id).map fun kv => (id, kv.2)

/-- Mention extraction of `sendReply`: the first tool call named
`mention_user` whose result action is `mention`, in group chats only. -/
def extractAtUser (toolCalls : List ToolCallInfo) (isGroup : Bool) : Option ℕ :=
  if isGroup then
    match toolCalls.find? fun c =>
        c.name == "mention_user" && c.resultAction == some "mention" with
    | some c => c.resultUserId
    | none => none
  else none

/-- `EnhancedQQChatAgentServer.sendReply`: build the `send_message`
payload for the primary pending message and enqueue it. -/
def sendReply (qq : QQMessage) (replyText : String)
    (toolCalls : List ToolCallInfo) : EnqueuedTask :=
  let isGroup := qq.message_type == "group"
  let atUser := extractAtUser toolCalls isGroup
  let target : MsgTarget :=
    match (if isGroup then qq.group_id else none) with
    | some gid => { userId := none, groupId := some gid, atUser := atUser }
    | none => { userId := some qq.user_id, groupId := none, atUser := none }
  .sendMessage target replyText

/-- `EnhancedQQChatAgentServer.enqueueChatTasks`: thinking tasks become
`store_memory` tasks; each reply string of a reply task is formatted and
sent to the most recent pending correlation.  The returned list is the
order in which the tasks are enqueued into the `TaskQueue`. -/
def enqueueChatTasks (tasks : List ChatTask)
    (pendingReplies : List (String × QQMessage)) (resp : ChatResponse) :
    List EnqueuedTask :=
  let primaryPending := pendingReplies.getLast?
  tasks.flatMap fun task =>
    match task with
    | .thinking c => [.storeMemory c]
    | .reply cs =>
      match primaryPending with
      | none => []
      | some (_, qq) =>
        cs.map fun c => sendReply qq (formatReply c) resp.toolCalls

/-- `EnhancedQQChatAgentServer.handleQueueFlushResult`: skip unprocessed,
absent or `skipReply` responses; normalize the tasks, correlate the batch
ids with the pending map, and hand over to `enqueueChatTasks`. -/
def handleQueueFlushResult (result : QueueProcessResult)
    (pending : List (String × QQMessage)) : List EnqueuedTask :=
  match result.response with
  | none => []
  | some resp =>
    if ¬ result.processed ∨ resp.skipReply then []
    else
      let chatTasks := normalizeChatTasks resp
      let messageIds := extractMessageIdsFromResult result (pending.map (·.1))
      let pendingReplies := getPendingRepliesForMessages pending messageIds
      if pendingReplies.isEmpty then []
      else if chatTasks.isEmpty then []
      else enqueueChatTasks chatTasks pendingReplies resp

/-- The `send_message` texts of a task list, in order. -/
def sendTexts (ts : List EnqueuedTask) : List String :=
  ts.filterMap fun t =>
    match t with
    | .sendMessage _ m => some m
    | .storeMemory _ => none

/-! ## Concrete instances used by witnesses and counterexamples -/

/-- A remote model that answers every prompt with the literal `not-json`
(the reply of scenario 6 of the specification). -/
def modelNotJson : String → String := fun _ => "not-json"

/-- Default queue configuration of the source
(`botName = "FingerBot"`, 8 s silence, 10 messages, 30 s age). -/
def queueCfg0 : QueueConfig :=
  { botName := "FingerBot", silenceSeconds := 8, maxQueueSize := 10
    maxQueueAgeSeconds := 30 }

/-- A plain inbound text message. -/
def msgPlain : Message :=
  { id := "m0", userId := "u1", userName := some "alice", groupId := some "g1"
    conversationId := none, content := "hello there", timestamp := 1000000
    msgType := .text }

/-- An inbound message mentioning the bot. -/
def msgMention : Message :=
  { id := "m1", userId := "u1", userName := some "alice", groupId := some "g1"
    conversationId := none, content := "@FingerBot hi", timestamp := 1000000
    msgType := .text }

/-- The queued form of `msgPlain` in context `group_g1` at time 1000000. -/
def qmPlain : QueuedMessage :=
  convertToQueuedMessage queueCfg0 msgPlain "group_g1" 1000000

/-- A trivial processor that always succeeds with a fixed response. -/
def procOk : List QueuedMessage → Except Unit ChatResponse := fun _ =>
  .ok { content := "ok", tokensUsed := some 1, skipReply := false
        thinking := none, replies := none, messageIds := none, tasks := none
        toolCalls := [] }

/-- A context state holding one message while a flush is in progress. -/
def busyQueueState : QueueState :=
  { messages := [qmPlain], silenceTimerArmed := false, isProcessing := true
    lastFlushTime := none, lastFlushReason := none }

/-- An idle context state with one queued message. -/
def idleQueueState : QueueState :=
  { messages := [qmPlain], silenceTimerArmed := true, isProcessing := false
    lastFlushTime := none, lastFlushReason := none }

/-- An empty idle context state. -/
def emptyQueueState : QueueState :=
  { messages := [], silenceTimerArmed := false, isProcessing := false
    lastFlushTime := none, lastFlushReason := none }

/-- A task-queue state holding one unprocessed task. -/
def tqState0 : TaskQueueState :=
  { queue := [pendingTask0], isProcessing := false, stopRequested := false }

/-- An HTTP 429 error value. -/
def err429 : GError := { status := some 429, code := none, message := none }

/-- A textual rate-limit error value. -/
def errRateLimitText : GError :=
  { status := none, code := none, message := some "Rate limit exceeded" }

/-- A fresh key status named `A`. -/
def freshStatusA : ApiKeyStatus :=
  { key := "A", isBlocked := false, errorCount := 0, lastErrorTime := 0
    blockStartTime := none }

/-- Key `A` blocked at time 0. -/
def blockedStatusA : ApiKeyStatus :=
  { key := "A", isBlocked := true, errorCount := 5, lastErrorTime := 0
    blockStartTime := some 0 }

/-- Key `B`, healthy. -/
def healthyStatusB : ApiKeyStatus :=
  { key := "B", isBlocked := false, errorCount := 0, lastErrorTime := 0
    blockStartTime := none }

/-- Key `B` blocked at time 500. -/
def blockedStatusB : ApiKeyStatus :=
  { key := "B", isBlocked := true, errorCount := 5, lastErrorTime := 500
    blockStartTime := some 500 }

/-- Pool with `A` blocked and `B` healthy, cursor at 0. -/
def poolAB : ApiKeyManagerState :=
  { statuses := [blockedStatusA, healthyStatusB], currentKeyIndex := 0 }

/-- Pool with both keys blocked (`A` earlier), cursor at 1. -/
def poolBothBlocked : ApiKeyManagerState :=
  { statuses := [blockedStatusA, blockedStatusB], currentKeyIndex := 1 }

/-- Error times 4 minutes apart (the counterexample run of claim C5). -/
def errTimes3 : List ℤ := [0, 240000, 480000]

/-- Fold of `recordError` over a list of error times. -/
def recordErrorRun (st : ApiKeyStatus) (e : GError) (times : List ℤ) :
    ApiKeyStatus :=
  times.foldl (fun acc t => recordError acc e t) st

/-- Fold of the claim-C5 model over a list of error times. -/
def recordErrorClaimRun (st : ClaimKeyStatus) (times : List ℤ) :
    ClaimKeyStatus :=
  times.foldl (fun acc t => recordErrorClaimC5 acc t) st

/-- A fresh claim-C5 key state. -/
def freshClaimStatus : ClaimKeyStatus :=
  { errorCount := 0, firstErrorAtInWindow := none, blockedAt := none }

/-- A group QQ message used as pending correlation target. -/
def qqMsg0 : QQMessage :=
  { message_id := 77, message_type := "group", user_id := 42, group_id := some 9 }

/-- A processed flush result carrying a two-message reply decision. -/
def replyResult0 : QueueProcessResult :=
  { processed := true, messageCount := 1, errorOccurred := false
    reason := .silence_trigger, contextId := "group_g1"
    response := some
      { content := "first", tokensUsed := some 3, skipReply := false
        thinking := some "t", replies := some ["first", "second"]
        messageIds := some ["m1"]
        tasks := some [ChatTask.reply ["first", "second"]]
        toolCalls := [] }
    messages := [createMessageLog qmPlain] }

/-- A pending-correlation map holding the inbound message `m1`. -/
def pending0 : List (String × QQMessage) := [("m1", qqMsg0)]

/-! ## Theorems -/

/-- Every index below `n` is hit by the rotation scan `i ↦ (start + i) % n`. -/
theorem rotation_hit (n start j : ℕ) (hj : j < n) :
    ∃ i, i < n ∧ (start + i) % n = j := by
  have hn : 0 < n := Nat.lt_of_le_of_lt (Nat.zero_le j) hj
  have hs : start % n < n := Nat.mod_lt _ hn
  have hd := Nat.div_add_mod start n
  by_cases hc : start % n ≤ j
  · refine ⟨j - start % n, by omega, ?_⟩
    have h1 : start + (j - start % n) = n * (start / n) + j := by omega
    rw [h1, Nat.mul_add_mod, Nat.mod_eq_of_lt hj]
  · refine ⟨j + n - start % n, by omega, ?_⟩
    have h1 : start + (j + n - start % n) = n * (start / n + 1) + j := by
      rw [Nat.mul_succ]
      omega
    rw [h1, Nat.mul_add_mod, Nat.mod_eq_of_lt hj]

/-- Soundness of the rotation scan: a hit is an unblocked entry of the
pool at the returned index. -/
theorem findAvailGo_sound (sts : List ApiKeyStatus) (start : ℕ) :
    ∀ (r i idx : ℕ) (st : ApiKeyStatus),
      findAvailGo sts start i r = some (idx, st) →
      sts.get? idx = some st ∧ st.isBlocked = false := by
  intro r
  induction r with
  | zero =>
    intro i idx st h
    simp [findAvailGo] at h
  | succ r ih =>
    intro i idx st h
    unfold findAvailGo at h
    dsimp only at h
    cases hg : sts.get? ((start + i) % sts.length) with
    | none =>
      rw [hg] at h
      exact ih (i + 1) idx st h
    | some st0 =>
      rw [hg] at h
      dsimp only at h
      by_cases hb : st0.isBlocked
      · rw [if_pos hb] at h
        exact ih (i + 1) idx st h
      · rw [if_neg hb] at h
        obtain ⟨h1, h2⟩ := Prod.mk.injEq .. ▸ Option.some.injEq .. ▸ h
        subst h1
        subst h2
        exact ⟨hg, by simpa using hb⟩

/-- Completeness of the rotation scan: a miss means every entry visited
in the scanned window is blocked. -/
theorem findAvailGo_complete (sts : List ApiKeyStatus) (start : ℕ) :
    ∀ (r i : ℕ), findAvailGo sts start i r = none →
      ∀ d, d < r → ∀ st,
        sts.get? ((start + (i + d)) % sts.length) = some st →
        st.isBlocked = true := by
  intro r
  induction r with
  | zero =>
    intro i _ d hd
    exact absurd hd (Nat.not_lt_zero d)
  | succ r ih =>
    intro i h d hd st hget
    unfold findAvailGo at h
    dsimp only at h
    cases hg : sts.get? ((start + i) % sts.length) with
    | none =>
      rw [hg] at h
      cases d with
      | zero =>
        rw [Nat.add_zero] at hget
        rw [hget] at hg
        exact absurd hg (by simp)
      | succ d =>
        have hidx : start + (i + (d + 1)) = start + ((i + 1) + d) := by omega
        rw [hidx] at hget
        exact ih (i + 1) h d (by omega) st hget
    | some st0 =>
      rw [hg] at h
      dsimp only at h
      by_cases hb : st0.isBlocked
      · rw [if_pos hb] at h
        cases d with
        | zero =>
          rw [Nat.add_zero] at hget
          rw [hget] at hg
          obtain rfl : st0 = st := by simpa using hg.symm
          simpa using hb
        | succ d =>
          have hidx : start + (i + (d + 1)) = start + ((i + 1) + d) := by omega
          rw [hidx] at hget
          exact ih (i + 1) h d (by omega) st hget
      · rw [if_neg hb] at h
        exact absurd h (by simp)

/-- When the full scan misses, every entry of the pool is blocked. -/
theorem findAvailableFrom_none_all_blocked (sts : List ApiKeyStatus)
    (start : ℕ) (h : findAvailableFrom sts start = none) :
    ∀ st ∈ sts, st.isBlocked = true := by
  intro st hst
  obtain ⟨j, hjlt, hjget⟩ := List.mem_iff_getElem.mp hst
  obtain ⟨i, hi, hmod⟩ := rotation_hit sts.length start j hjlt
  refine findAvailGo_complete sts start sts.length 0 h i hi st ?_
  rw [Nat.zero_add, hmod]
  simp [List.get?_eq_getElem?, List.getElem?_eq_getElem hjlt, hjget]

/-- The fold of `getEarliestBlockedKey` returns a minimal blocked entry:
its provenance is the accumulator or a blocked member of the list, its
time is a lower bound of every blocked time of the list, and it never
exceeds the accumulator. -/
theorem earliestBlockedAux_min (sts : List ApiKeyStatus) :
    ∀ (acc : Option (String × ℤ)) (res : String × ℤ),
      earliestBlockedAux sts acc = some res →
      (acc = some res ∨
        ∃ st ∈ sts, st.key = res.1 ∧ st.isBlocked = true ∧
          st.blockStartTime = some res.2) ∧
      (∀ st ∈ sts, st.isBlocked = true → ∀ t2, st.blockStartTime = some t2 →
        res.2 ≤ t2) ∧
      (∀ q, acc = some q → res.2 ≤ q.2) := by
  induction sts with
  | nil =>
    intro acc res h
    refine ⟨Or.inl (by simpa [earliestBlockedAux] using h), by simp, ?_⟩
    intro q hq
    rw [hq] at h
    simp [earliestBlockedAux] at h
    simp [h]
  | cons st rest ih =>
    intro acc res h
    unfold earliestBlockedAux at h
    dsimp only at h
    by_cases hb : st.isBlocked
    · rw [if_pos hb] at h
      cases hts : st.blockStartTime with
      | none =>
        rw [hts] at h
        dsimp only at h
        obtain ⟨hsrc, hmin, hacc⟩ := ih acc res h
        refine ⟨?_, ?_, hacc⟩
        · rcases hsrc with h1 | ⟨st2, hst2, hk2, hb2, ht2⟩
          · exact Or.inl h1
          · exact Or.inr ⟨st2, List.mem_cons_of_mem st hst2, hk2, hb2, ht2⟩
        · intro st2 hst2 hb2 t2 ht2
          rcases List.mem_cons.mp hst2 with rfl | hst2
          · rw [ht2] at hts
            exact absurd hts (by simp)
          · exact hmin st2 hst2 hb2 t2 ht2
      | some t =>
        rw [hts] at h
        cases hacc0 : acc with
        | none =>
          rw [hacc0] at h
          dsimp only at h
          obtain ⟨hsrc, hmin, haccle⟩ := ih (some (st.key, t)) res h
          have hle : res.2 ≤ t := haccle (st.key, t) rfl
          refine ⟨?_, ?_, by simp [hacc0]⟩
          · rcases hsrc with h1 | ⟨st2, hst2, hk2, hb2, ht2⟩
            · obtain rfl : (st.key, t) = res := by simpa using h1
              exact Or.inr ⟨st, List.mem_cons_self st rest, rfl, hb, hts⟩
            · exact Or.inr ⟨st2, List.mem_cons_of_mem st hst2, hk2, hb2, ht2⟩
          · intro st2 hst2 hb2 t2 ht2
            rcases List.mem_cons.mp hst2 with rfl | hst2
            · rw [ht2] at hts
              obtain rfl : t2 = t := by simpa using hts
              exact hle
            · exact hmin st2 hst2 hb2 t2 ht2
        | some q0 =>
          rw [hacc0] at h
          dsimp only at h
          by_cases hlt : t < q0.2
          · rw [if_pos hlt] at h
            obtain ⟨hsrc, hmin, haccle⟩ := ih (some (st.key, t)) res h
            have hle : res.2 ≤ t := haccle (st.key, t) rfl
            refine ⟨?_, ?_, ?_⟩
            · rcases hsrc with h1 | ⟨st2, hst2, hk2, hb2, ht2⟩
              · obtain rfl : (st.key, t) = res := by simpa using h1
                exact Or.inr ⟨st, List.mem_cons_self st rest, rfl, hb, hts⟩
              · exact Or.inr ⟨st2, List.mem_cons_of_mem st hst2, hk2, hb2, ht2⟩
            · intro st2 hst2 hb2 t2 ht2
              rcases List.mem_cons.mp hst2 with rfl | hst2
              · rw [ht2] at hts
                obtain rfl : t2 = t := by simpa using hts
                exact hle
              · exact hmin st2 hst2 hb2 t2 ht2
            · intro q hq
              obtain rfl : q0 = q := by simpa [hacc0] using hq
              exact le_trans hle (le_of_lt hlt)
          · rw [if_neg hlt] at h
            obtain ⟨hsrc, hmin, haccle⟩ := ih (some (q0.1, q0.2)) res h
            have hle : res.2 ≤ q0.2 := haccle (q0.1, q0.2) rfl
            refine ⟨?_, ?_, ?_⟩
            · rcases hsrc with h1 | ⟨st2, hst2, hk2, hb2, ht2⟩
              · exact Or.inl (by simpa using h1)
              · exact Or.inr ⟨st2, List.mem_cons_of_mem st hst2, hk2, hb2, ht2⟩
            · intro st2 hst2 hb2 t2 ht2
              rcases List.mem_cons.mp hst2 with rfl | hst2
              · rw [ht2] at hts
                obtain rfl : t2 = t := by simpa using hts
                exact le_trans hle (not_lt.mp hlt)
              · exact hmin st2 hst2 hb2 t2 ht2
            · intro q hq
              obtain rfl : q0 = q := by simpa [hacc0] using hq
              exact hle
    · rw [if_neg hb] at h
      obtain ⟨hsrc, hmin, hacc⟩ := ih acc res h
      refine ⟨?_, ?_, hacc⟩
      · rcases hsrc with h1 | ⟨st2, hst2, hk2, hb2, ht2⟩
        · exact Or.inl h1
        · exact Or.inr ⟨st2, List.mem_cons_of_mem st hst2, hk2, hb2, ht2⟩
      · intro st2 hst2 hb2 t2 ht2
        rcases List.mem_cons.mp hst2 with rfl | hst2
        · exact absurd hb2 (by simpa using hb)
        · exact hmin st2 hst2 hb2 t2 ht2

/-- The fold of `getEarliestBlockedKey` cannot miss when the accumulator
is set or some member is blocked with a block time. -/
theorem earliestBlockedAux_ne_none (sts : List ApiKeyStatus) :
    ∀ acc : Option (String × ℤ),
      (acc ≠ none ∨ ∃ st ∈ sts, st.isBlocked = true ∧
        ∃ t, st.blockStartTime = some t) →
      earliestBlockedAux sts acc ≠ none := by
  induction sts with
  | nil =>
    intro acc h
    rcases h with h | h
    · simpa [earliestBlockedAux] using h
    · simp at h
  | cons st rest ih =>
    intro acc h
    unfold earliestBlockedAux
    dsimp only
    by_cases hb : st.isBlocked
    · rw [if_pos hb]
      cases hts : st.blockStartTime with
      | none =>
        dsimp only
        refine ih acc ?_
        rcases h with h | ⟨st2, hst2, hb2, t2, ht2⟩
        · exact Or.inl h
        · rcases List.mem_cons.mp hst2 with rfl | hst2
          · rw [ht2] at hts
            exact absurd hts (by simp)
          · exact Or.inr ⟨st2, hst2, hb2, t2, ht2⟩
      | some t =>
        cases hacc0 : acc with
        | none =>
          dsimp only
          exact ih (some (st.key, t)) (Or.inl (by simp))
        | some q0 =>
          dsimp only
          by_cases hlt : t < q0.2
          · rw [if_pos hlt]
            exact ih (some (st.key, t)) (Or.inl (by simp))
          · rw [if_neg hlt]
            exact ih (some (q0.1, q0.2)) (Or.inl (by simp))
    · rw [if_neg hb]
      refine ih acc ?_
      rcases h with h | ⟨st2, hst2, hb2, t2, ht2⟩
      · exact Or.inl h
      · rcases List.mem_cons.mp hst2 with rfl | hst2
        · exact absurd hb2 (by simpa using hb)
        · exact Or.inr ⟨st2, hst2, hb2, t2, ht2⟩

/-- `cleanExpiredBlocks` rewrites each entry in place and keeps its key. -/
theorem cleanExpiredBlocks_map_key (now : ℤ) (sts : List ApiKeyStatus) :
    (cleanExpiredBlocks now sts).map (·.key) = sts.map (·.key) := by
  unfold cleanExpiredBlocks
  rw [List.map_map]
  refine List.map_congr_left ?_
  intro st _
  dsimp only [Function.comp_apply]
  cases hts : st.blockStartTime with
  | none => rfl
  | some t =>
    dsimp only
    split <;> rfl

/-- An entry blocked less than an hour ago is left unchanged by
`cleanExpiredBlocks` and therefore still belongs to the cleaned pool. -/
theorem cleanExpiredBlocks_fix_of_recent (now : ℤ) (sts : List ApiKeyStatus)
    (k : ApiKeyStatus) (t : ℤ) (hk : k ∈ sts)
    (ht : k.blockStartTime = some t) (hrec : now - t ≤ BLOCK_DURATION_MS) :
    k ∈ cleanExpiredBlocks now sts := by
  unfold cleanExpiredBlocks
  have hfix :
      (match k.blockStartTime with
        | some t =>
          if k.isBlocked && decide (BLOCK_DURATION_MS < now - t) then
            { k with isBlocked := false, blockStartTime := none, errorCount := 0 }
          else k
        | none => k) = k := by
    rw [ht]
    dsimp only
    rw [if_neg]
    simp [not_lt.mpr hrec]
  exact hfix ▸ List.mem_map_of_mem _ hk

/-- In a pool whose keys are pairwise distinct, two members with the same
key coincide. -/
theorem key_nodup_mem_eq (sts : List ApiKeyStatus)
    (hnd : (sts.map (·.key)).Nodup) (a b : ApiKeyStatus)
    (ha : a ∈ sts) (hb : b ∈ sts) (hkey : a.key = b.key) : a = b := by
  induction sts with
  | nil => exact absurd ha (List.not_mem_nil a)
  | cons st rest ih =>
    rw [List.map_cons, List.nodup_cons] at hnd
    rcases List.mem_cons.mp ha with rfl | ha2
    · rcases List.mem_cons.mp hb with rfl | hb2
      · rfl
      · exact absurd (hkey ▸ List.mem_map_of_mem (·.key) hb2) hnd.1
    · rcases List.mem_cons.mp hb with rfl | hb2
      · exact absurd (hkey ▸ List.mem_map_of_mem (·.key) ha2) hnd.1
      · exact ih hnd.2 ha2 hb2

/-- C6: a credential blocked within the last hour is never returned by
`getCurrentApiKey` while some credential of the pool is available after
expiry cleanup; when every credential is blocked, the one with the
earliest `blockStartTime` is returned (degraded mode). -/
theorem blocked_key_not_selected (m : ApiKeyManagerState) (now : ℤ)
    (k : ApiKeyStatus) (t : ℤ)
    (hnd : (m.statuses.map (·.key)).Nodup)
    (hk : k ∈ m.statuses) (hb : k.isBlocked = true)
    (ht : k.blockStartTime = some t) (hrec : now - t ≤ BLOCK_DURATION_MS) :
    ((∃ st ∈ cleanExpiredBlocks now m.statuses, st.isBlocked = false) →
      (getCurrentApiKey m now).1 ≠ k.key) ∧
    ((∀ st ∈ cleanExpiredBlocks now m.statuses, st.isBlocked = true) →
      ∃ st ∈ cleanExpiredBlocks now m.statuses, st.isBlocked = true ∧
        (getCurrentApiKey m now).1 = st.key ∧
        ∃ t0, st.blockStartTime = some t0 ∧
          ∀ st2 ∈ cleanExpiredBlocks now m.statuses, ∀ t2,
            st2.blockStartTime = some t2 → t0 ≤ t2) := by
  have hkc : k ∈ cleanExpiredBlocks now m.statuses :=
    cleanExpiredBlocks_fix_of_recent now m.statuses k t hk ht hrec
  have hndc : ((cleanExpiredBlocks now m.statuses).map (·.key)).Nodup := by
    rw [cleanExpiredBlocks_map_key]
    exact hnd
  constructor
  · intro hex heq
    cases hfind : findAvailableFrom (cleanExpiredBlocks now m.statuses)
        m.currentKeyIndex with
    | none =>
      obtain ⟨stf, hstf, hbf⟩ := hex
      have := findAvailableFrom_none_all_blocked _ _ hfind stf hstf
      rw [this] at hbf
      exact absurd hbf (by simp)
    | some p =>
      obtain ⟨idx, stf⟩ := p
      obtain ⟨hget, hbf⟩ := findAvailGo_sound _ _ _ _ _ _ hfind
      have hres : (getCurrentApiKey m now).1 = stf.key := by
        unfold getCurrentApiKey
        dsimp only
        rw [hfind]
      have hmem : stf ∈ cleanExpiredBlocks now m.statuses := by
        have := List.getElem?_eq_some_iff.mp (by simpa using hget)
        obtain ⟨hlt, hgetelem⟩ := this
        exact hgetelem ▸ List.getElem_mem hlt
      have hkeq : stf.key = k.key := by rw [← hres, heq]
      have : stf = k := key_nodup_mem_eq _ hndc stf k hmem hkc hkeq
      rw [this] at hbf
      rw [hb] at hbf
      exact absurd hbf (by simp)
  · intro hall
    cases hfind : findAvailableFrom (cleanExpiredBlocks now m.statuses)
        m.currentKeyIndex with
    | some p =>
      obtain ⟨idx, stf⟩ := p
      obtain ⟨hget, hbf⟩ := findAvailGo_sound _ _ _ _ _ _ hfind
      have hmem : stf ∈ cleanExpiredBlocks now m.statuses := by
        have := List.getElem?_eq_some_iff.mp (by simpa using hget)
        obtain ⟨hlt, hgetelem⟩ := this
        exact hgetelem ▸ List.getElem_mem hlt
      rw [hall stf hmem] at hbf
      exact absurd hbf (by simp)
    | none =>
      cases haux : earliestBlockedAux (cleanExpiredBlocks now m.statuses)
          none with
      | none =>
        exact absurd haux (earliestBlockedAux_ne_none _ none
          (Or.inr ⟨k, hkc, hb, t, ht⟩))
      | some res =>
        obtain ⟨hsrc, hmin, _⟩ := earliestBlockedAux_min _ none res haux
        rcases hsrc with h1 | ⟨stm, hstm, hkm, hbm, htm⟩
        · exact absurd h1.symm (by simp)
        · refine ⟨stm, hstm, hbm, ?_, res.2, htm, ?_⟩
          · unfold getCurrentApiKey
            dsimp only
            rw [hfind]
            dsimp only
            unfold getEarliestBlockedKey
            rw [haux]
            exact hkm.symm
          · intro st2 hst2 t2 ht2
            exact hmin st2 hst2 (hall st2 hst2) t2 ht2

/-- C6 (witness): with key `A` blocked 1 second ago and key `B` healthy,
`getCurrentApiKey` skips `A` and returns `B`. -/
theorem blocked_key_not_selected_witness :
    (getCurrentApiKey poolAB 1000).1 ≠ "A" ∧
      (getCurrentApiKey poolAB 1000).1 = "B" :=
  ⟨(blocked_key_not_selected poolAB 1000 blockedStatusA 0 (by decide)
      (by decide) rfl rfl (by decide)).1 (by decide), by decide⟩

/-- C2 (counterexample): with the default parameters, one update step of
intensity 1 over 1 s from a full state does not satisfy the claimed
equations, because the source computes the recover term from the stamina
value after this step of consumption, not before it. -/
theorem stamina_update_preconsumption_recover_counterexample :
    StaminaManager.update staminaCfg0 staminaFull 1 1 ≠
      updateClaimC2 staminaCfg0 staminaFull 1 1 := by
  have hL : StaminaManager.update staminaCfg0 staminaFull 1 1 =
      { currentStamina := 988033 / 10000, momentum := 1 / 2 } := by
    norm_num [StaminaManager.update, staminaCfg0, staminaFull, max_def, min_def]
  have hR : updateClaimC2 staminaCfg0 staminaFull 1 1 =
      { currentStamina := 494 / 5, momentum := 1 / 2 } := by
    norm_num [updateClaimC2, staminaCfg0, staminaFull, max_def, min_def]
  rw [hL, hR]
  simp only [ne_eq, StaminaState.mk.injEq, not_and]
  intro h
  norm_num at h

/-- C2 (amended): outside rest mode the update step computes, in order,
`momentum ← max(0, momentum·(1 − β·dt) + α·I·dt)`,
`consume ← k·I^p·dt`,
`recover ← (r·(1 − (current − consume)/S_max) − γ·momentum)·dt` — the
recover term reads the stamina value after this step of consumption — and
`current ← clamp(current − consume + recover, 0, S_max)`. -/
theorem stamina_update_postconsumption_recover (cfg : StaminaConfig)
    (s : StaminaState) (intensity dt : ℚ) (h : cfg.restMode = false) :
    StaminaManager.update cfg s intensity dt =
      { currentStamina :=
          max 0 (min
            (s.currentStamina - cfg.k * intensity ^ cfg.p * dt +
              (cfg.regenRate *
                  (1 - (s.currentStamina - cfg.k * intensity ^ cfg.p * dt) /
                    cfg.maxStamina) -
                cfg.gamma *
                  max 0 (s.momentum * (1 - cfg.beta * dt) +
                    cfg.alpha * intensity * dt)) * dt)
            cfg.maxStamina)
        momentum :=
          max 0 (s.momentum * (1 - cfg.beta * dt) +
            cfg.alpha * intensity * dt) } := by
  simp [StaminaManager.update, h]

/-- C2 (witness): the amended step equations evaluated with the default
parameters on a full state at intensity 1 over 1 s. -/
theorem stamina_update_postconsumption_recover_witness :
    staminaCfg0.restMode = false ∧
      StaminaManager.update staminaCfg0 staminaFull 1 1 =
        { currentStamina :=
            max 0 (min
              (staminaFull.currentStamina -
                  staminaCfg0.k * 1 ^ staminaCfg0.p * 1 +
                (staminaCfg0.regenRate *
                    (1 - (staminaFull.currentStamina -
                        staminaCfg0.k * 1 ^ staminaCfg0.p * 1) /
                      staminaCfg0.maxStamina) -
                  staminaCfg0.gamma *
                    max 0 (staminaFull.momentum * (1 - staminaCfg0.beta * 1) +
                      staminaCfg0.alpha * 1 * 1)) * 1)
              staminaCfg0.maxStamina)
          momentum :=
            max 0 (staminaFull.momentum * (1 - staminaCfg0.beta * 1) +
              staminaCfg0.alpha * 1 * 1) } :=
  ⟨rfl, stamina_update_postconsumption_recover staminaCfg0 staminaFull 1 1 rfl⟩

/-- C7: the stamina invariant `current ∈ [0, S_max]` and `momentum ≥ 0` is
preserved by every mutating operation of `StaminaManager` — the
background tick, `consumeStamina` (including its rest-mode no-op) and
`setStamina` — whenever it holds before the operation. -/
theorem stamina_invariant_preserved (cfg : StaminaConfig) (op : StaminaOp)
    (s : StaminaState) (hmax : 0 ≤ cfg.maxStamina) (hinv : StaminaInv cfg s) :
    StaminaInv cfg (applyStaminaOp cfg op s) := by
  have hupd : ∀ (s' : StaminaState) (i dt : ℚ), StaminaInv cfg s' →
      StaminaInv cfg (StaminaManager.update cfg s' i dt) := by
    intro s' i dt hs
    unfold StaminaManager.update
    by_cases hr : cfg.restMode
    · simp only [hr, if_true]
      exact ⟨hs.1, hs.2.1, le_max_left 0 _⟩
    · simp only [hr, if_false]
      exact ⟨le_max_left 0 _, max_le hmax (min_le_right _ _), le_max_left 0 _⟩
  cases op with
  | tick dt => exact hupd s 0 dt hinv
  | consume n dt =>
    show StaminaInv cfg (consumeStamina cfg s n dt).2
    unfold consumeStamina
    split
    · exact hinv
    · split
      · exact hupd _ n 1 (hupd s 0 dt hinv)
      · exact hupd s n 1 hinv
  | adjust v =>
    exact ⟨le_max_left 0 _, max_le hmax (min_le_left _ _), hinv.2.2⟩

/-- C3 (counterexample): a flush requested while `isProcessing = true`
does not leave the queued messages unchanged regardless of stamina: with
depleted stamina (level critical) the queue is drained, because the
source checks stamina before the processing flag. -/
theorem flush_processing_stamina_order_counterexample :
    busyQueueState.isProcessing = true ∧
      busyQueueState.messages ≠ [] ∧
      (flushQueue staminaCfg0 staminaEmpty procOk 2000000 1 "group_g1"
          busyQueueState .manual_trigger).result.processed = false ∧
      (flushQueue staminaCfg0 staminaEmpty procOk 2000000 1 "group_g1"
          busyQueueState .manual_trigger).state.messages = [] := by
  have hcan : canReply staminaCfg0 staminaEmpty = false := by
    simp [canReply, staminaCfg0, staminaEmpty]
  have hlevel : calculateLevel staminaCfg0 staminaEmpty.currentStamina =
      .critical := by
    norm_num [calculateLevel, staminaCfg0, staminaEmpty]
  refine ⟨rfl, by simp [busyQueueState], ?_, ?_⟩ <;>
    simp [flushQueue, busyQueueState, hcan, hlevel]

/-- C3 (amended): the stamina check precedes the processing check.  A
flush requested while `isProcessing = true` always returns
`{processed: false}` as a normal value and hands nothing to the
processor; it leaves the queued messages unchanged whenever `canReply()`
is true or the stamina level is not critical, but drains them when
`canReply()` is false at critical level. -/
theorem flush_processing_busy_result (scfg : StaminaConfig) (ss : StaminaState)
    (proc : List QueuedMessage → Except Unit ChatResponse) (now : ℤ) (dt : ℚ)
    (ctx : String) (q : QueueState) (reason : FlushReason)
    (hproc : q.isProcessing = true) :
    (flushQueue scfg ss proc now dt ctx q reason).result.processed = false ∧
      (flushQueue scfg ss proc now dt ctx q reason).processedBatch = none ∧
      ((canReply scfg ss = true ∨
          calculateLevel scfg ss.currentStamina ≠ .critical) →
        (flushQueue scfg ss proc now dt ctx q reason).state.messages =
          q.messages) ∧
      (canReply scfg ss = false →
        calculateLevel scfg ss.currentStamina = .critical →
        (flushQueue scfg ss proc now dt ctx q reason).state.messages = []) := by
  by_cases hempty : q.messages.isEmpty
  · have hnil : q.messages = [] := by
      simpa [List.isEmpty_iff] using hempty
    simp [flushQueue, hempty, hnil]
  · by_cases hcan : canReply scfg ss
    · simp [flushQueue, hempty, hcan, hproc]
    · by_cases hcrit : calculateLevel scfg ss.currentStamina = .critical
      · simp [flushQueue, hempty, hcan, hcrit]
      · simp [flushQueue, hempty, hcan, hcrit]

/-- C3 (witness): with full stamina, a manual flush of a context that is
already processing returns unprocessed and leaves its one queued message
in place. -/
theorem flush_processing_busy_result_witness :
    (flushQueue staminaCfg0 staminaFull procOk 2000000 1 "group_g1"
        busyQueueState .manual_trigger).result.processed = false ∧
      (flushQueue staminaCfg0 staminaFull procOk 2000000 1 "group_g1"
          busyQueueState .manual_trigger).processedBatch = none ∧
      ((canReply staminaCfg0 staminaFull = true ∨
          calculateLevel staminaCfg0 staminaFull.currentStamina ≠ .critical) →
        (flushQueue staminaCfg0 staminaFull procOk 2000000 1 "group_g1"
            busyQueueState .manual_trigger).state.messages =
          busyQueueState.messages) ∧
      (canReply staminaCfg0 staminaFull = false →
        calculateLevel staminaCfg0 staminaFull.currentStamina = .critical →
        (flushQueue staminaCfg0 staminaFull procOk 2000000 1 "group_g1"
            busyQueueState .manual_trigger).state.messages = []) :=
  flush_processing_busy_result staminaCfg0 staminaFull procOk 2000000 1
    "group_g1" busyQueueState .manual_trigger rfl

/-- C10: when a flush finds `canReply()` false at critical stamina level
on a non-empty queue, the messages are drained and the returned result
reports `processed = false` with reason `stamina_insufficient`, a
`messageCount` of 0 and an empty message list, both computed from the
queue after it was drained. -/
theorem critical_flush_drops_and_reports_empty (scfg : StaminaConfig)
    (ss : StaminaState) (proc : List QueuedMessage → Except Unit ChatResponse)
    (now : ℤ) (dt : ℚ) (ctx : String) (q : QueueState) (reason : FlushReason)
    (hcan : canReply scfg ss = false)
    (hlevel : calculateLevel scfg ss.currentStamina = .critical)
    (hne : q.messages ≠ []) :
    (flushQueue scfg ss proc now dt ctx q reason).result.processed = false ∧
      (flushQueue scfg ss proc now dt ctx q reason).result.reason =
        .stamina_insufficient ∧
      (flushQueue scfg ss proc now dt ctx q reason).result.messageCount = 0 ∧
      (flushQueue scfg ss proc now dt ctx q reason).result.messages = [] ∧
      (flushQueue scfg ss proc now dt ctx q reason).state.messages = [] ∧
      (flushQueue scfg ss proc now dt ctx q reason).processedBatch = none := by
  have hempty : ¬ q.messages.isEmpty := by
    simpa [List.isEmpty_iff] using hne
  simp [flushQueue, hempty, hcan, hlevel, createMessageLogs]

/-- C10 (witness): a silence flush of a one-message context at zero
stamina drains it and reports a count of 0 with an empty list. -/
theorem critical_flush_drops_and_reports_empty_witness :
    (flushQueue staminaCfg0 staminaEmpty procOk 2000000 1 "group_g1"
        idleQueueState .silence_trigger).result.processed = false ∧
      (flushQueue staminaCfg0 staminaEmpty procOk 2000000 1 "group_g1"
          idleQueueState .silence_trigger).result.reason =
        .stamina_insufficient ∧
      (flushQueue staminaCfg0 staminaEmpty procOk 2000000 1 "group_g1"
          idleQueueState .silence_trigger).result.messageCount = 0 ∧
      (flushQueue staminaCfg0 staminaEmpty procOk 2000000 1 "group_g1"
          idleQueueState .silence_trigger).result.messages = [] ∧
      (flushQueue staminaCfg0 staminaEmpty procOk 2000000 1 "group_g1"
          idleQueueState .silence_trigger).state.messages = [] ∧
      (flushQueue staminaCfg0 staminaEmpty procOk 2000000 1 "group_g1"
          idleQueueState .silence_trigger).processedBatch = none :=
  critical_flush_drops_and_reports_empty staminaCfg0 staminaEmpty procOk
    2000000 1 "group_g1" idleQueueState .silence_trigger
    (by simp [canReply, staminaCfg0, staminaEmpty])
    (by norm_num [calculateLevel, staminaCfg0, staminaEmpty])
    (by simp [idleQueueState])

/-- C8: a message whose content contains `@botName` or `botName`
(case-insensitively) or whose kind is command is marked high priority;
`addMessage` then immediately flushes the context with reason
`high_priority`, handing the processor a batch that ends with the
just-enqueued message (when stamina allows and no flush is in flight),
and returns without arming or resetting the silence timer. -/
theorem high_priority_immediate_flush (qcfg : QueueConfig)
    (scfg : StaminaConfig) (ss : StaminaState)
    (proc : List QueuedMessage → Except Unit ChatResponse) (now : ℤ) (dt : ℚ)
    (q : QueueState) (m : Message)
    (hhp : strContains (lowerStr (trimStr m.content))
            ("@" ++ lowerStr qcfg.botName) = true ∨
           strContains (lowerStr (trimStr m.content)) (lowerStr qcfg.botName) = true ∨
           m.msgType = .command)
    (hcan : canReply scfg ss = true) (hproc : q.isProcessing = false) :
    (addMessage qcfg scfg ss proc now dt q m).queued.isHighPriority = true ∧
      ∃ fo, (addMessage qcfg scfg ss proc now dt q m).flush = some fo ∧
        fo.result.reason = .high_priority_trigger ∧
        fo.processedBatch =
          some (q.messages ++ [(addMessage qcfg scfg ss proc now dt q m).queued]) ∧
        fo.state.silenceTimerArmed = false ∧
        (addMessage qcfg scfg ss proc now dt q m).state.silenceTimerArmed =
          false := by
  have hq : isHighPriorityMessage qcfg m = true := by
    unfold isHighPriorityMessage
    rcases hhp with h | h | h <;> simp [h]
  have hqm : (convertToQueuedMessage qcfg m (getContextId m) now).isHighPriority
      = true := hq
  have hne : (q.messages ++
      [convertToQueuedMessage qcfg m (getContextId m) now]).isEmpty = false := by
    simp
  unfold addMessage
  simp only [hqm, if_true]
  refine ⟨by simp [hqm], ?_⟩
  refine ⟨_, rfl, ?_⟩
  cases hp : proc (q.messages ++
      [convertToQueuedMessage qcfg m (getContextId m) now]) <;>
    simp [flushQueue, hne, hcan, hproc, hp]

/-- C8 (witness): enqueueing `@FingerBot hi` into an empty idle context
with full stamina marks it high priority and immediately flushes a batch
ending with it, leaving the silence timer unarmed. -/
theorem high_priority_immediate_flush_witness :
    (addMessage queueCfg0 staminaCfg0 staminaFull procOk 1000000 1
        emptyQueueState msgMention).queued.isHighPriority = true ∧
      ∃ fo, (addMessage queueCfg0 staminaCfg0 staminaFull procOk 1000000 1
          emptyQueueState msgMention).flush = some fo ∧
        fo.result.reason = .high_priority_trigger ∧
        fo.processedBatch =
          some (emptyQueueState.messages ++
            [(addMessage queueCfg0 staminaCfg0 staminaFull procOk 1000000 1
                emptyQueueState msgMention).queued]) ∧
        fo.state.silenceTimerArmed = false ∧
        (addMessage queueCfg0 staminaCfg0 staminaFull procOk 1000000 1
            emptyQueueState msgMention).state.silenceTimerArmed = false :=
  high_priority_immediate_flush queueCfg0 staminaCfg0 staminaFull procOk
    1000000 1 emptyQueueState msgMention (Or.inl (by decide))
    (by simp [canReply, staminaCfg0, staminaFull]) rfl

/-- C4 (counterexample): `shutdown` on a queue holding one unprocessed
task leaves that task in the queue and does not reject its future. -/
theorem task_queue_shutdown_discard_counterexample :
    (TaskQueue.shutdownEffect tqState0).queue ≠ [] ∧
      ∀ t ∈ (TaskQueue.shutdownEffect tqState0).queue,
        t.future ≠ FutureState.rejected ∧ t.future = FutureState.pending := by
  constructor
  · simp [TaskQueue.shutdownEffect, tqState0]
  · intro t ht
    have : t = pendingTask0 := by
      simpa [TaskQueue.shutdownEffect, tqState0] using ht
    subst this
    exact ⟨by simp [pendingTask0], rfl⟩

/-- C4 (amended): `shutdown` sets the stop flag and waits for the
in-flight task to complete; the tasks remaining in the queue are kept
there untouched (so every future is left in whatever settlement state it
had — none is rejected), unlike the claim-model which empties the queue. -/
theorem task_queue_shutdown_keeps_queue (s : TaskQueueState) :
    (TaskQueue.shutdownEffect s).stopRequested = true ∧
      (TaskQueue.shutdownEffect s).queue = s.queue ∧
      (TaskQueue.shutdownEffect s).isProcessing = s.isProcessing ∧
      (shutdownClaimC4 s).queue = [] :=
  ⟨rfl, rfl, rfl, by simp [shutdownClaimC4]⟩

/-- C5 (counterexample): three rate-limit errors four minutes apart.  At
the third error five minutes have elapsed since the first error of the
window, so the claim predicts a window reset (count 1, as the claim-model
shows); the source instead compares against the most recent error and
keeps counting (count 3). -/
theorem record_error_window_anchor_counterexample :
    (recordErrorRun freshStatusA err429 errTimes3).errorCount = 3 ∧
      (recordErrorClaimRun freshClaimStatus errTimes3).errorCount = 1 := by
  constructor <;> decide

/-- C5 (amended): on a rate-limit-like failure the sliding window is
reset exactly when strictly more than 5 minutes have elapsed since the
most recent rate-limit error (`lastErrorTime`), not since the first error
of the window; after the optional reset the count is incremented and
`lastErrorTime` is stamped, and as soon as the count reaches 5 the
credential is blocked with `blockStartTime = now`. -/
theorem record_error_last_error_window (st : ApiKeyStatus) (e : GError)
    (now : ℤ) (h429 : is429Error e = true) :
    (recordError st e now).errorCount =
        (if ERROR_WINDOW_MS < now - st.lastErrorTime then 1
         else st.errorCount + 1) ∧
      (recordError st e now).lastErrorTime = now ∧
      (MAX_ERRORS_IN_WINDOW ≤ (recordError st e now).errorCount →
        (recordError st e now).isBlocked = true ∧
          (recordError st e now).blockStartTime = some now) ∧
      ((recordError st e now).errorCount < MAX_ERRORS_IN_WINDOW →
        (recordError st e now).isBlocked = st.isBlocked ∧
          (recordError st e now).blockStartTime = st.blockStartTime) := by
  by_cases hw : ERROR_WINDOW_MS < now - st.lastErrorTime
  · have hres : recordError st e now =
        { st with errorCount := 1, lastErrorTime := now } := by
      simp [recordError, h429, hw, MAX_ERRORS_IN_WINDOW]
    rw [hres]
    refine ⟨by simp [hw], rfl, ?_, fun _ => ⟨rfl, rfl⟩⟩
    intro hge
    simp [MAX_ERRORS_IN_WINDOW] at hge
  · by_cases hb : MAX_ERRORS_IN_WINDOW ≤ st.errorCount + 1
    · have hres : recordError st e now =
          { st with errorCount := st.errorCount + 1, lastErrorTime := now
                    isBlocked := true, blockStartTime := some now } := by
        simp [recordError, h429, hw, hb]
      rw [hres]
      refine ⟨by simp [hw], rfl, fun _ => ⟨rfl, rfl⟩, ?_⟩
      intro hlt
      exact absurd hb (not_le_of_lt hlt)
    · have hres : recordError st e now =
          { st with errorCount := st.errorCount + 1, lastErrorTime := now } := by
        simp [recordError, h429, hw, hb]
      rw [hres]
      refine ⟨by simp [hw], rfl, ?_, fun _ => ⟨rfl, rfl⟩⟩
      intro hge
      exact absurd hge hb

/-- C5 (witness): a first textual rate-limit error at time 400000 on a
fresh credential resets the (empty) window, sets the count to 1 and does
not block. -/
theorem record_error_last_error_window_witness :
    (recordError freshStatusA errRateLimitText 400000).errorCount =
        (if ERROR_WINDOW_MS < 400000 - freshStatusA.lastErrorTime then 1
         else freshStatusA.errorCount + 1) ∧
      (recordError freshStatusA errRateLimitText 400000).lastErrorTime =
        400000 ∧
      (MAX_ERRORS_IN_WINDOW ≤
          (recordError freshStatusA errRateLimitText 400000).errorCount →
        (recordError freshStatusA errRateLimitText 400000).isBlocked = true ∧
          (recordError freshStatusA errRateLimitText 400000).blockStartTime =
            some 400000) ∧
      ((recordError freshStatusA errRateLimitText 400000).errorCount <
          MAX_ERRORS_IN_WINDOW →
        (recordError freshStatusA errRateLimitText 400000).isBlocked =
            freshStatusA.isBlocked ∧
          (recordError freshStatusA errRateLimitText 400000).blockStartTime =
            freshStatusA.blockStartTime) :=
  record_error_last_error_window freshStatusA errRateLimitText 400000
    (by decide)

/-- C1 (counterexample): on the model reply `not-json` the newer
`generateResponse` performs exactly one model invocation (no reformat
request is ever issued) and falls back to the raw text with the default
thinking `处理用户请求中...`, never `format fallback`. -/
theorem parse_fallback_no_reformat_counterexample :
    (generateResponse modelNotJson "PROMPT").2 = 1 ∧
      (generateResponse modelNotJson "PROMPT").2 ≠ 2 ∧
      (generateResponse modelNotJson "PROMPT").1.thinking = "处理用户请求中..." ∧
      (generateResponse modelNotJson "PROMPT").1.thinking ≠ "format fallback" ∧
      (generateResponse modelNotJson "PROMPT").1.replies =
        some [JsonValue.jstr "not-json"] ∧
      (generateResponse modelNotJson "PROMPT").1.skipReply = false :=
  ⟨rfl, by decide, rfl, by decide, rfl, rfl⟩

/-- C1 (amended): for every non-empty model response text that fails JSON
parsing, the newer `generateResponse` issues no reformat request — the
single primary model call is the only one — and immediately returns a
reply decision whose messages are the raw trimmed text as a single entry
and whose thinking is the default `处理用户请求中...`. -/
theorem parse_failure_raw_text_fallback (model : String → String)
    (prompt : String)
    (htext : (model prompt).isEmpty = false)
    (hne : (trimStr (model prompt)).isEmpty = false)
    (hfail : jsonParse
        (stripTrailingFence (stripJsonFenceStart (trimStr (model prompt)))) =
      none) :
    generateResponse model prompt =
      ({ content := .jstr (trimStr (model prompt))
         thinking := "处理用户请求中..."
         skipReply := false
         replies := some [.jstr (trimStr (model prompt))]
         tasks := [.reply [.jstr (trimStr (model prompt))]]
         toolCallNames := ["reply_message"] }, 1) := by
  unfold generateResponse assembleGenAiResponse parseTextResponse
  simp [htext, hne, hfail, show "".isEmpty = true from rfl]

/-- C1 (witness): the fallback evaluated on the literal reply `not-json`. -/
theorem parse_failure_raw_text_fallback_witness :
    generateResponse modelNotJson "PROMPT" =
      ({ content := .jstr "not-json"
         thinking := "处理用户请求中..."
         skipReply := false
         replies := some [.jstr "not-json"]
         tasks := [.reply [.jstr "not-json"]]
         toolCallNames := ["reply_message"] }, 1) :=
  parse_failure_raw_text_fallback modelNotJson "PROMPT" rfl rfl rfl

/-- C9: a processed, non-skipped flush result whose decision is a reply
task carrying `N` message strings (each non-empty once trimmed), matched
by at least one pending correlation, enqueues exactly `N` `send_message`
tasks, carrying the `N` strings in the order the client returned them
(trimmed by task normalization and capped by `formatReply`). -/
theorem reply_messages_enqueued_in_order (result : QueueProcessResult)
    (pending : List (String × QQMessage)) (resp : ChatResponse)
    (msgs : List String)
    (hresp : result.response = some resp)
    (hproc : result.processed = true)
    (hskip : resp.skipReply = false)
    (htasks : resp.tasks = some [ChatTask.reply msgs])
    (hne : ∀ m ∈ msgs, (trimStr m).isEmpty = false)
    (hmatch : getPendingRepliesForMessages pending
        (extractMessageIdsFromResult result (pending.map (·.1))) ≠ []) :
    sendTexts (handleQueueFlushResult result pending) =
      msgs.map (fun m => formatReply (trimStr m)) := by
  obtain ⟨pr, hp⟩ : ∃ pr, (getPendingRepliesForMessages pending
      (extractMessageIdsFromResult result (pending.map (·.1)))).getLast? =
        some pr := by
    cases hL : (getPendingRepliesForMessages pending
        (extractMessageIdsFromResult result (pending.map (·.1)))).getLast? with
    | some pr => exact ⟨pr, rfl⟩
    | none => exact absurd (List.getLast?_eq_none_iff.mp hL) hmatch
  have hfilter : ((msgs.map trimStr).filter fun s => !s.isEmpty) =
      msgs.map trimStr := by
    rw [List.filter_eq_self]
    intro a ha
    obtain ⟨m, hm, rfl⟩ := List.mem_map.mp ha
    simp [hne m hm]
  cases msgs with
  | nil =>
    have hnorm : normalizeChatTasks resp = [] := by
      unfold normalizeChatTasks
      rw [htasks]
      simp
    simp [handleQueueFlushResult, hresp, hproc, hskip, hnorm, sendTexts]
  | cons m0 ms =>
    have hnorm : normalizeChatTasks resp =
        [ChatTask.reply ((m0 :: ms).map trimStr)] := by
      unfold normalizeChatTasks
      rw [htasks]
      simp only [List.filterMap_cons, List.filterMap_nil]
      rw [hfilter]
      simp
    unfold handleQueueFlushResult
    rw [hresp]
    simp [hproc, hskip, hnorm, hmatch, enqueueChatTasks, hp, sendTexts,
      sendReply, List.filterMap_map, Function.comp_def]
    rw [show (fun x => some (formatReply (trimStr x))) =
        some ∘ (fun x => formatReply (trimStr x)) from rfl]
    rw [List.filterMap_eq_map]

/-- C9 (witness): a two-message reply decision correlated through `m1`
enqueues exactly the two messages in order. -/
theorem reply_messages_enqueued_in_order_witness :
    sendTexts (handleQueueFlushResult replyResult0 pending0) =
      ["first", "second"].map (fun m => formatReply (trimStr m)) :=
  reply_messages_enqueued_in_order replyResult0 pending0
    ((replyResult0.response).getD
      { content := "", tokensUsed := none, skipReply := false, thinking := none
        replies := none, messageIds := none, tasks := none, toolCalls := [] })
    ["first", "second"] rfl rfl rfl rfl (by decide) (by decide)

/-- C7 (witness): the invariant holds for the full default state and is
preserved by a 1-second background tick. -/
theorem stamina_invariant_preserved_witness :
    (0 : ℚ) ≤ staminaCfg0.maxStamina ∧ StaminaInv staminaCfg0 staminaFull ∧
      StaminaInv staminaCfg0
        (applyStaminaOp staminaCfg0 (StaminaOp.tick 1) staminaFull) :=
  ⟨by decide, by decide,
    stamina_invariant_preserved staminaCfg0 (StaminaOp.tick 1) staminaFull
      (by decide) (by decide)⟩

end FingerBot
